import Mathlib

/-!
Shallow embedding of the BallsDex football-game package
(`ballsdex/packages/footballgame`): the roster/wager data model
(`game_user.py`), the slash-command handlers (`cog.py`) and the match
menu with its simulation and settlement (`menu.py`).

Machine integers of the source are modelled as `Int`/`Nat`; the float
arithmetic of team strengths and random draws is modelled exactly over
`ℚ` (all quantities involved are small integer sums and literal
probability constants). Randomness (`random.random`, `random.choice`,
`secrets.choice`) is modelled as explicit input streams. Discord I/O,
embeds and confirmation prompts are outside the model except for the
boolean answer of a confirmation prompt, which is an input.
-/

/-- The five event categories drawn uniformly each regulation round
(`event_types = ["goal", "save", "offside", "defense", "foul"]`,
menu.py line 299). -/
inductive EventType
  | goal
  | save
  | offside
  | defense
  | foul
deriving DecidableEq, Repr

/-- The four roster positions (`{"GK": [], "DF": [], "MF": [], "FW": []}`,
game_user.py line 18). -/
inductive Position
  | GK
  | DF
  | MF
  | FW
deriving DecidableEq, Repr

/-- A collectible asset (`BallInstance`): identity, the two strength
stats (`attack`, `health`), the `is_tradeable` and `favorite` flags, the
owning player record and the display country. The external trade-lock
state lives in the match state's lock store, not here. -/
structure Ball where
  id : Nat
  attack : Int
  health : Int
  tradeable : Bool
  favorite : Bool
  owner : Nat
  country : String
deriving DecidableEq, Repr

/-- A roster: one ordered list of assets per position, mirroring the
`team` dict of `GameUser` (game_user.py lines 17-19). -/
structure Team where
  gk : List Ball
  df : List Ball
  mf : List Ball
  fw : List Ball
deriving DecidableEq, Repr

def Team.get (t : Team) : Position → List Ball
  | .GK => t.gk
  | .DF => t.df
  | .MF => t.mf
  | .FW => t.fw

def Team.set (t : Team) : Position → List Ball → Team
  | .GK, l => { t with gk := l }
  | .DF, l => { t with df := l }
  | .MF, l => { t with mf := l }
  | .FW, l => { t with fw := l }

/-- The empty roster, the state after `position.clear()` on every
position. -/
def Team.empty : Team := ⟨[], [], [], []⟩

/-- Position capacities (`position_caps = {"GK": 1, "DF": 4, "MF": 3,
"FW": 3}`, cog.py line 232). -/
def positionCap : Position → Nat
  | .GK => 1
  | .DF => 4
  | .MF => 3
  | .FW => 3

/-- One participant (`GameUser`, game_user.py): display name and
persistent player id stand for the `user` / `player` references. -/
structure GameUser where
  name : String
  playerId : Nat
  team : Team
  bets : List Ball
  locked : Bool
  cancelled : Bool
  won : Bool
deriving DecidableEq, Repr

/-- Python dict iteration order is insertion order, hence GK, DF, MF, FW
(`get_all_players`, game_user.py lines 26-31). -/
def GameUser.get_all_players (u : GameUser) : List Ball :=
  u.team.gk ++ u.team.df ++ u.team.mf ++ u.team.fw

/-- Team strength (`get_team_strength`, game_user.py lines 33-44):
0 when the roster is empty, otherwise the accumulated
`attack + health` total divided by the number of rostered assets. -/
def GameUser.get_team_strength (u : GameUser) : ℚ :=
  let all_players := u.get_all_players
  if all_players.isEmpty then 0
  else
    let total := all_players.foldl (fun acc p => acc + ((p.attack : ℚ) + (p.health : ℚ))) 0
    total / (all_players.length : ℚ)

/-- Minimum-team check (`has_minimum_team`, game_user.py lines 46-48):
at least one asset in every position. -/
def GameUser.has_minimum_team (u : GameUser) : Bool :=
  1 ≤ u.team.gk.length && 1 ≤ u.team.df.length &&
    1 ≤ u.team.mf.length && 1 ≤ u.team.fw.length

/-- Phase tag of a match: building until both sides lock, then
simulating; cancellation reachable from the button, the command, a
timeout or a settlement failure; settled on successful completion. -/
inductive Phase
  | building
  | simulating
  | cancelled
  | settled
deriving DecidableEq, Repr

/-- The external trade-lock store (`ball.lock_for_trade`, `ball.unlock`,
`ball.is_locked`): the list of currently locked ball ids. -/
abbrev LockStore := List Nat

def lockForTrade (locks : LockStore) (b : Ball) : LockStore := b.id :: locks

def unlockBall (locks : LockStore) (b : Ball) : LockStore :=
  locks.filter (fun i => i ≠ b.id)

def isLockedBall (locks : LockStore) (b : Ball) : Bool := locks.contains b.id

/-- State of one match (`GameMenu` plus the external lock store). -/
structure MatchState where
  p1 : GameUser
  p2 : GameUser
  locks : LockStore
  phase : Phase
deriving DecidableEq, Repr

/-- Choose player1 (`who = true`) or player2. -/
def MatchState.player (s : MatchState) (who : Bool) : GameUser :=
  if who then s.p1 else s.p2

def MatchState.setPlayer (s : MatchState) (who : Bool) (u : GameUser) : MatchState :=
  if who then { s with p1 := u } else { s with p2 := u }

/-- The `/game add` handler (cog.py lines 152-249) acting on the issuing
participant and the lock store. Every rejection path leaves both
unchanged; on success the asset is trade-locked and appended to the
named position. `favConfirm` is the answer to the favorite-asset
confirmation prompt. -/
def addCmd (pos : Position) (b : Ball) (favConfirm : Bool) (u : GameUser)
    (locks : LockStore) : GameUser × LockStore :=
  if ¬b.tradeable then (u, locks)
  else if b.favorite && ¬favConfirm then (u, locks)
  else if u.locked then (u, locks)
  else if b ∈ u.get_all_players then (u, locks)
  else if isLockedBall locks b then (u, locks)
  else if positionCap pos ≤ (u.team.get pos).length then (u, locks)
  else ({ u with team := u.team.set pos (u.team.get pos ++ [b]) }, lockForTrade locks b)

/-- The `/game remove` handler (cog.py lines 262-315): when the asset is
found in some position it is removed from that position and unlocked,
and also dropped from the wager list; otherwise nothing changes. -/
def removeCmd (b : Ball) (u : GameUser) (locks : LockStore) : GameUser × LockStore :=
  if u.locked then (u, locks)
  else if b ∈ u.get_all_players then
    ({ u with
        team := ⟨u.team.gk.erase b, u.team.df.erase b, u.team.mf.erase b, u.team.fw.erase b⟩,
        bets := u.bets.erase b },
      unlockBall locks b)
  else (u, locks)

/-- The `/game bet` handler (cog.py lines 317-382): rejected when the
participant is locked, the asset is untradeable or already wagered, or
it is trade-locked while not in the issuer's roster; otherwise the asset
is trade-locked when it is neither rostered nor already locked, and
appended to the wager list. -/
def betCmd (b : Ball) (u : GameUser) (locks : LockStore) : GameUser × LockStore :=
  if u.locked then (u, locks)
  else if ¬b.tradeable then (u, locks)
  else if b ∈ u.bets then (u, locks)
  else
    let in_team := b ∈ u.get_all_players
    let is_locked := isLockedBall locks b
    if is_locked && ¬in_team then (u, locks)
    else
      let locks2 := if ¬in_team && ¬is_locked then lockForTrade locks b else locks
      ({ u with bets := u.bets ++ [b] }, locks2)

/-- The Reset button (`GameView.clear`, menu.py lines 72-111): after
confirmation, every rostered asset is unlocked and the roster and wager
list are cleared. Assets locked by a wager but absent from the roster
are not unlocked here. -/
def clearCmd (confirm : Bool) (u : GameUser) (locks : LockStore) : GameUser × LockStore :=
  if u.locked then (u, locks)
  else if ¬confirm then (u, locks)
  else
    ({ u with team := Team.empty, bets := [] },
      u.get_all_players.foldl unlockBall locks)

/-- Lift a per-participant handler to the match state. -/
def MatchState.applyUser (s : MatchState) (who : Bool)
    (f : GameUser → LockStore → GameUser × LockStore) : MatchState :=
  let r := f (s.player who) s.locks
  { s.setPlayer who r.1 with locks := r.2 }

/-- The Lock button (`GameView.lock`, menu.py lines 43-70, and
`GameMenu.lock`, lines 245-250): rejected when the issuer is already
locked or lacks the minimum team; otherwise the issuer's `locked` flag
is set, and when both sides are then locked the simulation starts. -/
def lockCmd (who : Bool) (s : MatchState) : MatchState :=
  let u := s.player who
  if u.locked then s
  else if ¬u.has_minimum_team then s
  else
    let s2 := s.setPlayer who { u with locked := true }
    if s2.p1.locked && s2.p2.locked then { s2 with phase := .simulating } else s2

/-- `GameMenu.cancel` (menu.py lines 222-238): the refresh task is
stopped, every asset in either roster is unlocked, and the view is
terminated. Wagered assets outside the rosters are not touched. -/
def cancelRun (s : MatchState) : MatchState :=
  { s with
    locks := (s.p1.get_all_players ++ s.p2.get_all_players).foldl unlockBall s.locks,
    phase := .cancelled }

/-- `GameMenu.user_cancel` (menu.py lines 240-243): marks the cancelling
side and cancels. -/
def userCancel (who : Bool) (s : MatchState) : MatchState :=
  let u := s.player who
  cancelRun (s.setPlayer who { u with cancelled := true })

/-- One user-issued command during team building. `who = true` is
player1. Confirmation-prompt answers are carried in the command. -/
inductive Cmd
  | add (who : Bool) (pos : Position) (b : Ball) (favConfirm : Bool)
  | remove (who : Bool) (b : Ball)
  | bet (who : Bool) (b : Ball)
  | clearTeam (who : Bool) (confirm : Bool)
  | lockTeam (who : Bool)
  | cancelGame (who : Bool) (confirm : Bool)
  | timeout
deriving DecidableEq, Repr

/-- Semantics of one command on the match state. -/
def step (c : Cmd) (s : MatchState) : MatchState :=
  match c with
  | .add who pos b fav => s.applyUser who (addCmd pos b fav)
  | .remove who b => s.applyUser who (removeCmd b)
  | .bet who b => s.applyUser who (betCmd b)
  | .clearTeam who confirm => s.applyUser who (clearCmd confirm)
  | .lockTeam who => lockCmd who s
  | .cancelGame who confirm => if confirm then userCancel who s else s
  | .timeout => cancelRun s

/-- Run a sequence of commands. -/
def run (cmds : List Cmd) (s : MatchState) : MatchState := cmds.foldl (fun t c => step c t) s

/-- A fresh participant (`GameUser(user, player)` with dataclass
defaults, cog.py line 146). -/
def initUser (name : String) (pid : Nat) : GameUser :=
  ⟨name, pid, Team.empty, [], false, false, false⟩

/-- A fresh match over a lock store: both rosters and wager lists empty,
no flags set, building. The store may already hold locks owned by other
trades or matches. -/
def initState (n1 n2 : String) (pid1 pid2 : Nat) (locks : LockStore) : MatchState :=
  ⟨initUser n1 pid1, initUser n2 pid2, locks, .building⟩

/-! Simulation (`GameMenu.execute_game`, menu.py lines 268-458).
Random draws are explicit inputs: each regulation round consumes one
`RoundRand` (the `random.random()` draw, the uniformly drawn event
category, and the index used by `random.choice` on the position pool);
each penalty attempt consumes one `PenAttempt`; the sudden-death
`secrets.choice([player1, player2])` is a boolean coin. -/

instance : Inhabited Ball := ⟨⟨0, 0, 0, false, false, 0, ""⟩⟩

/-- Model of `random.choice(pool)` for a nonempty pool: the draw is an
arbitrary index reduced modulo the pool size. -/
def choice (pool : List Ball) (n : Nat) : Ball := pool.getD (n % pool.length) default

/-- Kinds of entries appended to `match_events`. -/
inductive EventKind
  | regular (t : EventType)
  | penGoal
  | penSave
deriving DecidableEq, Repr

/-- One entry of the match event log, keeping the data interpolated into
the log string (`_generate_match_event`, menu.py lines 252-266, and the
penalty log lines 421-427): minute (or penalty round), the named
participant, the asset's country and the event kind. -/
structure MatchEvent where
  minute : Nat
  playerName : String
  country : String
  kind : EventKind
deriving DecidableEq, Repr

/-- Python dict update `d[k] = v`, for the score dictionaries keyed by
`user.name` (menu.py lines 296, 394). -/
def updScore (sc : String → Nat) (k : String) (v : Nat) : String → Nat :=
  fun n => if n = k then v else sc n

/-- Initial score dict `{player1.user.name: 0, player2.user.name: 0}`. -/
def initScore (n1 n2 : String) : String → Nat :=
  updScore (updScore (fun _ => 0) n1 0) n2 0

/-- Randomness consumed by one regulation round. -/
structure RoundRand where
  draw : ℚ
  event : EventType
  pick : Nat
deriving DecidableEq, Repr

/-- The stronger/weaker assignment made once before the rounds (menu.py
lines 283-294): returns the side holding `stronger_player` (true for
player1) and `stronger_chance`. On equal strengths player1 is the
stronger side with chance 0.50. -/
def strongerSide (p1 p2 : GameUser) : Bool × ℚ :=
  if p1.get_team_strength > p2.get_team_strength then (true, 55/100)
  else if p2.get_team_strength > p1.get_team_strength then (false, 55/100)
  else (true, 1/2)

/-- Which side is `winner_player` of a round (menu.py line 305):
the stronger side exactly when the draw is below `stronger_chance`. -/
def roundWinnerIsP1 (p1 p2 : GameUser) (draw : ℚ) : Bool :=
  let sc := strongerSide p1 p2
  if draw < sc.2 then sc.1 else !sc.1

/-- One regulation round `i` (0-based; menu.py lines 301-350): the round
winner and loser are fixed, an event category is drawn, the matching
position pool is consulted, and when it is nonempty an asset is chosen
and a log entry appended; only a goal increments the round winner's
score; an empty pool changes nothing. -/
def playRound (p1 p2 : GameUser) (i : Nat) (r : RoundRand)
    (st : (String → Nat) × List MatchEvent) : (String → Nat) × List MatchEvent :=
  let minute := (i + 1) * 10
  let winnerIsP1 := roundWinnerIsP1 p1 p2 r.draw
  let wp := if winnerIsP1 then p1 else p2
  let lp := if winnerIsP1 then p2 else p1
  let score := st.1
  let events := st.2
  match r.event with
  | .goal =>
      let pool := wp.team.fw
      if pool.isEmpty then st
      else
        let scorer := choice pool r.pick
        (updScore score wp.name (score wp.name + 1),
          events ++ [⟨minute, wp.name, scorer.country, .regular .goal⟩])
  | .save =>
      let pool := wp.team.gk
      if pool.isEmpty then st
      else
        let saver := choice pool r.pick
        (score, events ++ [⟨minute, wp.name, saver.country, .regular .save⟩])
  | .offside =>
      let pool := lp.team.fw
      if pool.isEmpty then st
      else
        let offsider := choice pool r.pick
        (score, events ++ [⟨minute, lp.name, offsider.country, .regular .offside⟩])
  | .defense =>
      let pool := wp.team.df
      if pool.isEmpty then st
      else
        let defender := choice pool r.pick
        (score, events ++ [⟨minute, wp.name, defender.country, .regular .defense⟩])
  | .foul =>
      let pool := lp.team.mf
      if pool.isEmpty then st
      else
        let fouler := choice pool r.pick
        (score, events ++ [⟨minute, lp.name, fouler.country, .regular .foul⟩])

/-- The 10 regulation rounds (`for i in range(10)`, menu.py line 301)
over a stream of round randomness. -/
def runRegulation (p1 p2 : GameUser) (rands : Nat → RoundRand) :
    (String → Nat) × List MatchEvent :=
  (List.range 10).foldl (fun st i => playRound p1 p2 i (rands i) st)
    (initScore p1.name p2.name, [])

/-- Randomness consumed by one penalty attempt. -/
structure PenAttempt where
  shooterPick : Nat
  gkPick : Nat
  draw : ℚ
deriving DecidableEq, Repr

/-- One penalty attempt (menu.py lines 399-427): `shooter` takes the
shot against `other`; skipped entirely when the shooter has no forward
or the other side no goalkeeper; success probability 0.70, 0.50 or 0.60
by comparison of `attack + health`. -/
def penAttempt (shooter other : GameUser) (roundNo : Nat) (a : PenAttempt)
    (st : (String → Nat) × List MatchEvent) : (String → Nat) × List MatchEvent :=
  let forwards := shooter.team.fw
  let goalkeepers := other.team.gk
  if forwards.isEmpty || goalkeepers.isEmpty then st
  else
    let sh := choice forwards a.shooterPick
    let gk := choice goalkeepers a.gkPick
    let shooter_strength := sh.attack + sh.health
    let gk_strength := gk.attack + gk.health
    let success_chance : ℚ :=
      if shooter_strength > gk_strength then 70/100
      else if gk_strength > shooter_strength then 50/100
      else 60/100
    if a.draw < success_chance then
      (updScore st.1 shooter.name (st.1 shooter.name + 1),
        st.2 ++ [⟨roundNo, shooter.name, sh.country, .penGoal⟩])
    else
      (st.1, st.2 ++ [⟨roundNo, other.name, gk.country, .penSave⟩])

/-- One penalty round (`for shooter_player in [self.player1,
self.player2]`, menu.py line 399): player1 shoots, then player2; the
attempt stream is indexed by `2 * (roundNo - 1)` and the next index. -/
def runPenaltyRound (p1 p2 : GameUser) (pens : Nat → PenAttempt) (roundNo : Nat)
    (st : (String → Nat) × List MatchEvent) : (String → Nat) × List MatchEvent :=
  penAttempt p2 p1 roundNo (pens (2 * (roundNo - 1) + 1))
    (penAttempt p1 p2 roundNo (pens (2 * (roundNo - 1))) st)

/-- The 3-round penalty shootout (`for penalty_round in range(1, 4)`,
menu.py line 396), starting from the fresh penalty score dict. -/
def runPenalties (p1 p2 : GameUser) (pens : Nat → PenAttempt) :
    (String → Nat) × List MatchEvent :=
  [1, 2, 3].foldl (fun st r => runPenaltyRound p1 p2 pens r st)
    (initScore p1.name p2.name, [])

/-- Outcome of the simulation: the winning side, whether penalties were
needed, whether the sudden-death coin decided, and the two score dicts. -/
structure SimOutcome where
  winnerIsP1 : Bool
  wentToPenalties : Bool
  suddenDeath : Bool
  regScore : String → Nat
  penScore : Option (String → Nat)

/-- Winner determination (menu.py lines 369-455): regulation score
comparison keyed by the two display names; on a tie the penalty
shootout, then its score comparison; on a second tie the
`secrets.choice` coin (true picks player1). -/
def decideWinner (p1 p2 : GameUser) (rands : Nat → RoundRand)
    (pens : Nat → PenAttempt) (coin : Bool) : SimOutcome :=
  let score := (runRegulation p1 p2 rands).1
  if score p1.name > score p2.name then ⟨true, false, false, score, none⟩
  else if score p2.name > score p1.name then ⟨false, false, false, score, none⟩
  else
    let penalty_score := (runPenalties p1 p2 pens).1
    if penalty_score p1.name > penalty_score p2.name then
      ⟨true, true, false, score, some penalty_score⟩
    else if penalty_score p2.name > penalty_score p1.name then
      ⟨false, true, false, score, some penalty_score⟩
    else ⟨coin, true, true, score, some penalty_score⟩

/-! Settlement (menu.py lines 460-527). `winner.won = True` and the
wager filtering happen before the `try` block; inside it the valid
wagers are reassigned to the winner's player record, saved and unlocked,
the remaining rostered assets are unlocked, and rosters and wager lists
are cleared. Any exception inside the block is caught and converted into
a cancellation (lines 525-527). -/

/-- Mark the winning side's `won` flag (menu.py line 460). -/
def markWinner (s : MatchState) (winnerIsP1 : Bool) : MatchState :=
  let w := s.player winnerIsP1
  s.setPlayer winnerIsP1 { w with won := true }

/-- `all_team_balls = winner.get_all_players() + loser.get_all_players()`
(menu.py line 462). -/
def allTeamBalls (s : MatchState) (winnerIsP1 : Bool) : List Ball :=
  (s.player winnerIsP1).get_all_players ++ (s.player (!winnerIsP1)).get_all_players

/-- `betted_balls`: each side's wagers filtered to membership in either
final roster (menu.py lines 464-466). -/
def bettedBalls (s : MatchState) (winnerIsP1 : Bool) : List Ball :=
  s.p1.bets.filter (fun b => b ∈ allTeamBalls s winnerIsP1) ++
    s.p2.bets.filter (fun b => b ∈ allTeamBalls s winnerIsP1)

/-- Ids unlocked by a completed settlement, in program order: the valid
wagers first, then the rostered assets outside the wager set (menu.py
lines 469-476). -/
def settleOps (s : MatchState) (winnerIsP1 : Bool) : List Nat :=
  (bettedBalls s winnerIsP1).map Ball.id ++
    ((allTeamBalls s winnerIsP1).filter
      (fun b => b ∉ bettedBalls s winnerIsP1)).map Ball.id

/-- Remove a list of ids from the lock store, one at a time. -/
def removeIds (locks : LockStore) (ids : List Nat) : LockStore :=
  ids.foldl (fun l i => l.filter (fun j => j ≠ i)) locks

/-- A completed settlement: the state (won flag set, all roster-resident
locks released, rosters and wagers cleared) together with the persisted
asset records, each reassigned to the winner's player id (menu.py lines
460-483). -/
def settleFull (s : MatchState) (winnerIsP1 : Bool) : MatchState × List Ball :=
  let s0 := markWinner s winnerIsP1
  let winnerPid := (s.player winnerIsP1).playerId
  let transferred := (bettedBalls s winnerIsP1).map (fun b => { b with owner := winnerPid })
  let locks2 := removeIds s0.locks (settleOps s winnerIsP1)
  ({ s0 with
      p1 := { s0.p1 with team := Team.empty, bets := [] },
      p2 := { s0.p2 with team := Team.empty, bets := [] },
      locks := locks2,
      phase := .settled },
    transferred)

/-- A settlement aborted by an exception after `k` of the unlock
operations (menu.py lines 468-523): the partial state is handed to
`GameMenu.cancel` by the `except` clause (lines 525-527). When the
exception arrives after both unlock loops (`k` past their length, i.e.
during the result announcement), the rosters are already cleared. -/
def settleAborted (s : MatchState) (winnerIsP1 : Bool) (k : Nat) : MatchState :=
  let s0 := markWinner s winnerIsP1
  let ids := settleOps s winnerIsP1
  if k ≤ ids.length then
    cancelRun { s0 with locks := removeIds s0.locks (ids.take k) }
  else
    cancelRun { (settleFull s winnerIsP1).1 with phase := s0.phase }

/-! Spec-side definitions and concrete instances used by the claim
theorems and their witnesses. -/

/-- Spec-side statement of a side's strength: the arithmetic mean of
`attack + health` over all rostered assets, 0 for an empty roster. -/
def meanStrengthSpec (u : GameUser) : ℚ :=
  if u.get_all_players = [] then 0
  else ((u.get_all_players.map (fun b => (b.attack : ℚ) + (b.health : ℚ))).sum) /
    (u.get_all_players.length : ℚ)

/-- Concrete assets for a minimal two-player scenario. -/
def bG1 : Ball := ⟨1, 3, 3, true, false, 10, "A"⟩

def bD1 : Ball := ⟨2, 3, 3, true, false, 10, "B"⟩

def bM1 : Ball := ⟨3, 3, 3, true, false, 10, "C"⟩

def bF1 : Ball := ⟨4, 3, 3, true, false, 10, "D"⟩

def bG2 : Ball := ⟨5, 2, 2, true, false, 20, "E"⟩

def bD2 : Ball := ⟨6, 2, 2, true, false, 20, "F"⟩

def bM2 : Ball := ⟨7, 2, 2, true, false, 20, "G"⟩

def bF2 : Ball := ⟨8, 2, 2, true, false, 20, "H"⟩

/-- A tradeable asset wagered without ever being rostered. -/
def bBet : Ball := ⟨9, 1, 1, true, false, 10, "I"⟩

/-- Team building: both sides fill every position, player1 additionally
wagers `bBet` straight from the inventory. -/
def scenarioBuild : List Cmd :=
  [.add true .GK bG1 true, .add true .DF bD1 true, .add true .MF bM1 true,
    .add true .FW bF1 true, .add false .GK bG2 true, .add false .DF bD2 true,
    .add false .MF bM2 true, .add false .FW bF2 true, .bet true bBet]

/-- The full scenario: build, then both sides lock. -/
def scenario : List Cmd := scenarioBuild ++ [.lockTeam true, .lockTeam false]

/-- State after team building, before any lock. -/
def sBuild : MatchState := run scenarioBuild (initState "alice" "bob" 10 20 [])

/-- State after both locks: the match has entered the simulation. -/
def sC1 : MatchState := run scenario (initState "alice" "bob" 10 20 [])

/-! Helper lemmas about the state operations. -/

theorem setPlayer_player_self (s : MatchState) (who : Bool) :
    s.setPlayer who (s.player who) = s := by
  cases who <;> simp [MatchState.player, MatchState.setPlayer]

theorem player_setPlayer (s : MatchState) (who w : Bool) (u : GameUser) :
    (s.setPlayer who u).player w = if w = who then u else s.player w := by
  cases who <;> cases w <;> simp [MatchState.player, MatchState.setPlayer]

theorem applyUser_player (s : MatchState) (who w : Bool)
    (f : GameUser → LockStore → GameUser × LockStore) :
    (s.applyUser who f).player w =
      if w = who then (f (s.player who) s.locks).1 else s.player w := by
  cases who <;> cases w <;> simp [MatchState.applyUser, MatchState.player, MatchState.setPlayer]

theorem applyUser_locks (s : MatchState) (who : Bool)
    (f : GameUser → LockStore → GameUser × LockStore) :
    (s.applyUser who f).locks = (f (s.player who) s.locks).2 := by
  cases who <;> simp [MatchState.applyUser, MatchState.player, MatchState.setPlayer]

theorem applyUser_phase (s : MatchState) (who : Bool)
    (f : GameUser → LockStore → GameUser × LockStore) :
    (s.applyUser who f).phase = s.phase := by
  cases who <;> simp [MatchState.applyUser, MatchState.setPlayer]

theorem applyUser_id (s : MatchState) (who : Bool)
    (f : GameUser → LockStore → GameUser × LockStore)
    (h : f (s.player who) s.locks = (s.player who, s.locks)) :
    s.applyUser who f = s := by
  unfold MatchState.applyUser
  rw [h]
  cases who <;> simp [MatchState.player, MatchState.setPlayer]

theorem addCmd_locked_id (pos : Position) (b : Ball) (fc : Bool) (u : GameUser)
    (l : LockStore) (h : u.locked = true) : addCmd pos b fc u l = (u, l) := by
  simp [addCmd, h]

theorem removeCmd_locked_id (b : Ball) (u : GameUser) (l : LockStore)
    (h : u.locked = true) : removeCmd b u l = (u, l) := by
  simp [removeCmd, h]

theorem betCmd_locked_id (b : Ball) (u : GameUser) (l : LockStore)
    (h : u.locked = true) : betCmd b u l = (u, l) := by
  simp [betCmd, h]

theorem clearCmd_locked_id (confirm : Bool) (u : GameUser) (l : LockStore)
    (h : u.locked = true) : clearCmd confirm u l = (u, l) := by
  simp [clearCmd, h]

theorem addCmd_locked_eq (pos : Position) (b : Ball) (fc : Bool) (u : GameUser)
    (l : LockStore) : ((addCmd pos b fc u l).1).locked = u.locked := by
  unfold addCmd
  split_ifs <;> rfl

theorem removeCmd_locked_eq (b : Ball) (u : GameUser) (l : LockStore) :
    ((removeCmd b u l).1).locked = u.locked := by
  unfold removeCmd
  split_ifs <;> rfl

theorem betCmd_locked_eq (b : Ball) (u : GameUser) (l : LockStore) :
    ((betCmd b u l).1).locked = u.locked := by
  unfold betCmd
  dsimp only
  split_ifs <;> rfl

theorem clearCmd_locked_eq (confirm : Bool) (u : GameUser) (l : LockStore) :
    ((clearCmd confirm u l).1).locked = u.locked := by
  unfold clearCmd
  split_ifs <;> rfl

theorem phaseSet_player (s : MatchState) (p : Phase) (w : Bool) :
    ({ s with phase := p } : MatchState).player w = s.player w := by
  cases w <;> simp [MatchState.player]

theorem cancelRun_player (s : MatchState) (w : Bool) :
    (cancelRun s).player w = s.player w := by
  cases w <;> simp [cancelRun, MatchState.player]

theorem cancelRun_phase (s : MatchState) : (cancelRun s).phase = .cancelled := rfl

theorem userCancel_player (who w : Bool) (s : MatchState) :
    (userCancel who s).player w =
      if w = who then { s.player who with cancelled := true } else s.player w := by
  unfold userCancel
  rw [cancelRun_player, player_setPlayer]

theorem applyUser_locked_frozen (s : MatchState) (who' who : Bool)
    (f : GameUser → LockStore → GameUser × LockStore)
    (hid : ∀ u l, u.locked = true → f u l = (u, l))
    (h : (s.player who).locked = true) :
    (s.applyUser who' f).player who = s.player who := by
  rw [applyUser_player]
  by_cases hw : who = who'
  · rw [if_pos hw, ← hw, hid (s.player who) s.locks h]
  · rw [if_neg hw]

/-- Effect of a single command on a participant whose `locked` flag is
set: the flag stays set and the roster and wager list are untouched. -/
theorem step_locked_frozen (c : Cmd) (s : MatchState) (who : Bool)
    (h : (s.player who).locked = true) :
    ((step c s).player who).locked = true ∧
    ((step c s).player who).team = (s.player who).team ∧
    ((step c s).player who).bets = (s.player who).bets := by
  cases c with
  | add who' pos b fc =>
      rw [step, applyUser_locked_frozen s who' who _ (fun u l hu => addCmd_locked_id pos b fc u l hu) h]
      exact ⟨h, rfl, rfl⟩
  | remove who' b =>
      rw [step, applyUser_locked_frozen s who' who _ (fun u l hu => removeCmd_locked_id b u l hu) h]
      exact ⟨h, rfl, rfl⟩
  | bet who' b =>
      rw [step, applyUser_locked_frozen s who' who _ (fun u l hu => betCmd_locked_id b u l hu) h]
      exact ⟨h, rfl, rfl⟩
  | clearTeam who' confirm =>
      rw [step, applyUser_locked_frozen s who' who _ (fun u l hu => clearCmd_locked_id confirm u l hu) h]
      exact ⟨h, rfl, rfl⟩
  | lockTeam who' =>
      rw [step]
      unfold lockCmd
      by_cases h1 : (s.player who').locked
      · rw [if_pos h1]
        exact ⟨h, rfl, rfl⟩
      · rw [if_neg h1]
        by_cases h2 : (s.player who').has_minimum_team
        · rw [if_neg (by simp [h2])]
          have hw : who ≠ who' := by
            intro he
            rw [he] at h
            exact h1 h
          by_cases h3 : ((s.setPlayer who' { s.player who' with locked := true }).p1.locked &&
              (s.setPlayer who' { s.player who' with locked := true }).p2.locked)
          · rw [if_pos h3, phaseSet_player, player_setPlayer, if_neg hw]
            exact ⟨h, rfl, rfl⟩
          · rw [if_neg h3, player_setPlayer, if_neg hw]
            exact ⟨h, rfl, rfl⟩
        · rw [if_pos (by simp [h2])]
          exact ⟨h, rfl, rfl⟩
  | cancelGame who' confirm =>
      rw [step]
      by_cases hc : confirm
      · rw [if_pos hc, userCancel_player]
        by_cases hw : who = who'
        · rw [if_pos hw, ← hw]
          exact ⟨h, rfl, rfl⟩
        · rw [if_neg hw]
          exact ⟨h, rfl, rfl⟩
      · rw [if_neg hc]
        exact ⟨h, rfl, rfl⟩
  | timeout =>
      rw [step, cancelRun_player]
      exact ⟨h, rfl, rfl⟩

/-- Extension of the freeze property to command sequences. -/
theorem run_locked_frozen (cmds : List Cmd) (s : MatchState) (who : Bool)
    (h : (s.player who).locked = true) :
    ((run cmds s).player who).locked = true ∧
    ((run cmds s).player who).team = (s.player who).team ∧
    ((run cmds s).player who).bets = (s.player who).bets := by
  induction cmds generalizing s with
  | nil => exact ⟨h, rfl, rfl⟩
  | cons c cs ih =>
      have hs := step_locked_frozen c s who h
      have ihs := ih (step c s) hs.1
      exact ⟨ihs.1, ihs.2.1.trans hs.2.1, ihs.2.2.trans hs.2.2⟩

theorem Team.get_set_eq (t : Team) (pos pos2 : Position) (l : List Ball) :
    (t.set pos l).get pos2 = if pos2 = pos then l else t.get pos2 := by
  cases pos <;> cases pos2 <;> simp [Team.get, Team.set]

/-- The capacity invariant for one participant. -/
def capOk (u : GameUser) : Prop :=
  ∀ pos, ((u.team.get pos).length ≤ positionCap pos)

theorem addCmd_cap (pos : Position) (b : Ball) (fc : Bool) (u : GameUser)
    (l : LockStore) (h : capOk u) : capOk ((addCmd pos b fc u l).1) := by
  intro pos2
  unfold addCmd
  split_ifs with h1 h2 h3 h4 h5 h6
  all_goals try exact h pos2
  dsimp only
  rw [Team.get_set_eq]
  by_cases hp : pos2 = pos
  · rw [if_pos hp, hp, List.length_append]
    have hlt : ¬(positionCap pos ≤ (u.team.get pos).length) := h6
    simp only [List.length_singleton]
    omega
  · rw [if_neg hp]
    exact h pos2

theorem removeCmd_cap (b : Ball) (u : GameUser) (l : LockStore) (h : capOk u) :
    capOk ((removeCmd b u l).1) := by
  intro pos2
  unfold removeCmd
  split_ifs with h1 h2
  all_goals try exact h pos2
  dsimp only
  refine le_trans ?_ (h pos2)
  cases pos2 <;> simp [Team.get] <;> exact List.length_erase_le _ _

theorem betCmd_team_eq (b : Ball) (u : GameUser) (l : LockStore) :
    ((betCmd b u l).1).team = u.team := by
  unfold betCmd
  dsimp only
  split_ifs <;> rfl

theorem clearCmd_cap (confirm : Bool) (u : GameUser) (l : LockStore) (h : capOk u) :
    capOk ((clearCmd confirm u l).1) := by
  intro pos2
  unfold clearCmd
  split_ifs with h1 h2
  all_goals try exact h pos2
  dsimp only
  cases pos2 <;> simp [Team.get, Team.empty, positionCap]

/-- One command preserves the capacity invariant on both sides. -/
theorem step_cap (c : Cmd) (s : MatchState) (who : Bool)
    (h : capOk (s.player who)) : capOk ((step c s).player who) := by
  cases c with
  | add who' pos b fc =>
      rw [step, applyUser_player]
      by_cases hw : who = who'
      · rw [if_pos hw, ← hw]
        exact addCmd_cap pos b fc _ _ h
      · rw [if_neg hw]
        exact h
  | remove who' b =>
      rw [step, applyUser_player]
      by_cases hw : who = who'
      · rw [if_pos hw, ← hw]
        exact removeCmd_cap b _ _ h
      · rw [if_neg hw]
        exact h
  | bet who' b =>
      rw [step, applyUser_player]
      by_cases hw : who = who'
      · rw [if_pos hw, ← hw]
        intro pos2
        rw [betCmd_team_eq]
        exact h pos2
      · rw [if_neg hw]
        exact h
  | clearTeam who' confirm =>
      rw [step, applyUser_player]
      by_cases hw : who = who'
      · rw [if_pos hw, ← hw]
        exact clearCmd_cap confirm _ _ h
      · rw [if_neg hw]
        exact h
  | lockTeam who' =>
      rw [step]
      unfold lockCmd
      by_cases h1 : (s.player who').locked
      · rw [if_pos h1]
        exact h
      · rw [if_neg h1]
        by_cases h2 : (s.player who').has_minimum_team
        · rw [if_neg (by simp [h2])]
          by_cases h3 : ((s.setPlayer who' { s.player who' with locked := true }).p1.locked &&
              (s.setPlayer who' { s.player who' with locked := true }).p2.locked)
          · rw [if_pos h3, phaseSet_player, player_setPlayer]
            by_cases hw : who = who'
            · rw [if_pos hw]
              intro pos2
              rw [← hw]
              exact h pos2
            · rw [if_neg hw]
              exact h
          · rw [if_neg h3, player_setPlayer]
            by_cases hw : who = who'
            · rw [if_pos hw]
              intro pos2
              rw [← hw]
              exact h pos2
            · rw [if_neg hw]
              exact h
        · rw [if_pos (by simp [h2])]
          exact h
  | cancelGame who' confirm =>
      rw [step]
      split_ifs with hc
      · rw [userCancel_player]
        by_cases hw : who = who'
        · rw [if_pos hw]
          intro pos2
          rw [← hw]
          exact h pos2
        · rw [if_neg hw]
          exact h
      · exact h
  | timeout =>
      rw [step, cancelRun_player]
      exact h

/-- Command sequences preserve the capacity invariant. -/
theorem run_cap (cmds : List Cmd) (s : MatchState) (who : Bool)
    (h : capOk (s.player who)) : capOk ((run cmds s).player who) := by
  induction cmds generalizing s with
  | nil => exact h
  | cons c cs ih => exact ih (step c s) (step_cap c s who h)

theorem initState_player (n1 n2 : String) (pid1 pid2 : Nat) (locks : LockStore) (w : Bool) :
    (initState n1 n2 pid1 pid2 locks).player w =
      if w then initUser n1 pid1 else initUser n2 pid2 := by
  cases w <;> rfl

theorem initUser_capOk (n : String) (pid : Nat) : capOk (initUser n pid) := by
  intro pos
  cases pos <;> simp [initUser, Team.empty, Team.get, positionCap]

theorem MatchState.player_true (s : MatchState) : s.player true = s.p1 := rfl

theorem MatchState.player_false (s : MatchState) : s.player false = s.p2 := rfl

theorem applyUser_locked_flag (s : MatchState) (who' w : Bool)
    (f : GameUser → LockStore → GameUser × LockStore)
    (hf : ∀ u l, ((f u l).1).locked = u.locked) :
    ((s.applyUser who' f).player w).locked = (s.player w).locked := by
  rw [applyUser_player]
  by_cases hw : w = who'
  · rw [if_pos hw, hf, hw]
  · rw [if_neg hw]

/-- For a handler that leaves locked users untouched and never sets the
locked flag, the property `locked → minimum team` survives. -/
theorem applyUser_lockedMin (s : MatchState) (who' w : Bool)
    (f : GameUser → LockStore → GameUser × LockStore)
    (hf : ∀ u l, ((f u l).1).locked = u.locked)
    (hid : ∀ u l, u.locked = true → f u l = (u, l))
    (h : (s.player w).locked = true → (s.player w).has_minimum_team = true)
    (hl : ((s.applyUser who' f).player w).locked = true) :
    ((s.applyUser who' f).player w).has_minimum_team = true := by
  rw [applyUser_player] at hl ⊢
  by_cases hw : w = who'
  · rw [if_pos hw] at hl ⊢
    rw [hf] at hl
    rw [← hw] at hl
    rw [← hw, hid _ _ hl]
    exact h hl
  · rw [if_neg hw] at hl ⊢
    exact h hl

/-- Invariant: locked participants have at least one asset in every
position. -/
def lockedMin (s : MatchState) : Prop :=
  ∀ w, (s.player w).locked = true → (s.player w).has_minimum_team = true

/-- Invariant: the simulation phase is only reachable with both sides
locked. -/
def simBothLocked (s : MatchState) : Prop :=
  s.phase = .simulating → ((s.player true).locked = true ∧ (s.player false).locked = true)

theorem step_lockedMin (c : Cmd) (s : MatchState) (h : lockedMin s) :
    lockedMin (step c s) := by
  cases c with
  | add who' pos b fc =>
      intro w
      exact applyUser_lockedMin s who' w _ (addCmd_locked_eq pos b fc)
        (addCmd_locked_id pos b fc) (h w)
  | remove who' b =>
      intro w
      exact applyUser_lockedMin s who' w _ (removeCmd_locked_eq b)
        (removeCmd_locked_id b) (h w)
  | bet who' b =>
      intro w
      exact applyUser_lockedMin s who' w _ (betCmd_locked_eq b)
        (betCmd_locked_id b) (h w)
  | clearTeam who' confirm =>
      intro w
      exact applyUser_lockedMin s who' w _ (clearCmd_locked_eq confirm)
        (clearCmd_locked_id confirm) (h w)
  | lockTeam who' =>
      intro w
      rw [step]
      unfold lockCmd
      by_cases h1 : (s.player who').locked
      · rw [if_pos h1]
        exact h w
      · rw [if_neg h1]
        by_cases h2 : (s.player who').has_minimum_team
        · rw [if_neg (by simp [h2])]
          by_cases h3 : ((s.setPlayer who' { s.player who' with locked := true }).p1.locked &&
              (s.setPlayer who' { s.player who' with locked := true }).p2.locked)
          · rw [if_pos h3, phaseSet_player, player_setPlayer]
            by_cases hw : w = who'
            · rw [if_pos hw]
              intro _
              exact h2
            · rw [if_neg hw]
              exact h w
          · rw [if_neg h3, player_setPlayer]
            by_cases hw : w = who'
            · rw [if_pos hw]
              intro _
              exact h2
            · rw [if_neg hw]
              exact h w
        · rw [if_pos (by simp [h2])]
          exact h w
  | cancelGame who' confirm =>
      intro w
      rw [step]
      split_ifs with hc
      · rw [userCancel_player]
        by_cases hw : w = who'
        · rw [if_pos hw]
          intro hl
          exact h who' hl
        · rw [if_neg hw]
          exact h w
      · exact h w
  | timeout =>
      intro w
      rw [step, cancelRun_player]
      exact h w

theorem step_simBothLocked (c : Cmd) (s : MatchState) (h : simBothLocked s) :
    simBothLocked (step c s) := by
  cases c with
  | add who' pos b fc =>
      intro hp
      rw [step] at hp ⊢
      rw [applyUser_phase] at hp
      rw [applyUser_locked_flag s who' true _ (addCmd_locked_eq pos b fc),
        applyUser_locked_flag s who' false _ (addCmd_locked_eq pos b fc)]
      exact h hp
  | remove who' b =>
      intro hp
      rw [step] at hp ⊢
      rw [applyUser_phase] at hp
      rw [applyUser_locked_flag s who' true _ (removeCmd_locked_eq b),
        applyUser_locked_flag s who' false _ (removeCmd_locked_eq b)]
      exact h hp
  | bet who' b =>
      intro hp
      rw [step] at hp ⊢
      rw [applyUser_phase] at hp
      rw [applyUser_locked_flag s who' true _ (betCmd_locked_eq b),
        applyUser_locked_flag s who' false _ (betCmd_locked_eq b)]
      exact h hp
  | clearTeam who' confirm =>
      intro hp
      rw [step] at hp ⊢
      rw [applyUser_phase] at hp
      rw [applyUser_locked_flag s who' true _ (clearCmd_locked_eq confirm),
        applyUser_locked_flag s who' false _ (clearCmd_locked_eq confirm)]
      exact h hp
  | lockTeam who' =>
      rw [step]
      unfold lockCmd
      by_cases h1 : (s.player who').locked
      · rw [if_pos h1]
        exact h
      · rw [if_neg h1]
        by_cases h2 : (s.player who').has_minimum_team
        · rw [if_neg (by simp [h2])]
          by_cases h3 : ((s.setPlayer who' { s.player who' with locked := true }).p1.locked &&
              (s.setPlayer who' { s.player who' with locked := true }).p2.locked)
          · rw [if_pos h3]
            intro _
            have h3l := h3
            rw [Bool.and_eq_true] at h3l
            rw [phaseSet_player, phaseSet_player, MatchState.player_true, MatchState.player_false]
            exact h3l
          · rw [if_neg h3]
            intro hp
            have hp2 : s.phase = .simulating := by
              cases who' <;> simpa [MatchState.setPlayer] using hp
            have hb := h hp2
            exfalso
            apply h1
            cases who'
            · exact hb.2
            · exact hb.1
        · rw [if_pos (by simp [h2])]
          exact h
  | cancelGame who' confirm =>
      rw [step]
      split_ifs with hc
      · intro hp
        rw [userCancel] at hp
        exact absurd hp (by simp [cancelRun])
      · exact h
  | timeout =>
      intro hp
      exact absurd hp (by simp [step, cancelRun])

theorem run_lockedMin (cmds : List Cmd) (s : MatchState) (h : lockedMin s) :
    lockedMin (run cmds s) := by
  induction cmds generalizing s with
  | nil => exact h
  | cons c cs ih => exact ih (step c s) (step_lockedMin c s h)

theorem run_simBothLocked (cmds : List Cmd) (s : MatchState) (h : simBothLocked s) :
    simBothLocked (run cmds s) := by
  induction cmds generalizing s with
  | nil => exact h
  | cons c cs ih => exact ih (step c s) (step_simBothLocked c s h)

/-! Lock-store bookkeeping: sequences of unlock calls are filters of the
store. -/

theorem foldl_unlock_eq_filter (balls : List Ball) (l : LockStore) :
    balls.foldl unlockBall l = l.filter (fun j => decide (j ∉ balls.map Ball.id)) := by
  induction balls generalizing l with
  | nil => simp
  | cons b bs ih =>
      rw [List.foldl_cons]
      show bs.foldl unlockBall (unlockBall l b) = _
      rw [ih (unlockBall l b)]
      unfold unlockBall
      rw [List.filter_filter]
      apply List.filter_congr
      intro x _
      simp [List.mem_cons, not_or, Bool.and_comm]

theorem removeIds_eq_filter (ids : List Nat) (l : LockStore) :
    removeIds l ids = l.filter (fun j => decide (j ∉ ids)) := by
  induction ids generalizing l with
  | nil => simp [removeIds]
  | cons i is ih =>
      rw [removeIds, List.foldl_cons]
      show removeIds (l.filter fun j => j ≠ i) is = _
      rw [ih]
      rw [List.filter_filter]
      apply List.filter_congr
      intro x _
      simp [List.mem_cons, not_or, Bool.and_comm]

theorem cancelRun_locks (s : MatchState) :
    (cancelRun s).locks = s.locks.filter
      (fun j => decide (j ∉ (s.p1.get_all_players ++ s.p2.get_all_players).map Ball.id)) := by
  rw [cancelRun]
  exact foldl_unlock_eq_filter _ _

/-- Every id released by the settlement loops is the id of a rostered
asset, and conversely. -/
theorem mem_settleOps_iff (s : MatchState) (w : Bool) (j : Nat) :
    j ∈ settleOps s w ↔ j ∈ (allTeamBalls s w).map Ball.id := by
  unfold settleOps bettedBalls
  simp only [List.mem_append, List.mem_map, List.mem_filter]
  constructor
  · rintro (⟨b, ⟨hb, hteam⟩ | ⟨hb, hteam⟩, rfl⟩ | ⟨b, ⟨hteam, _⟩, rfl⟩)
    · exact ⟨b, by simpa using hteam, rfl⟩
    · exact ⟨b, by simpa using hteam, rfl⟩
    · exact ⟨b, hteam, rfl⟩
  · rintro ⟨b, hteam, rfl⟩
    by_cases hb : b ∈ s.p1.bets.filter (fun x => decide (x ∈ allTeamBalls s w)) ++
        s.p2.bets.filter (fun x => decide (x ∈ allTeamBalls s w))
    · left
      rcases List.mem_append.mp hb with h1 | h1
      · rcases List.mem_filter.mp h1 with ⟨hb1, hb2⟩
        exact ⟨b, Or.inl ⟨hb1, hb2⟩, rfl⟩
      · rcases List.mem_filter.mp h1 with ⟨hb1, hb2⟩
        exact ⟨b, Or.inr ⟨hb1, hb2⟩, rfl⟩
    · right
      refine ⟨b, ⟨hteam, ?_⟩, rfl⟩
      simp only [List.mem_append, List.mem_filter] at hb
      push_neg at hb
      rw [decide_eq_true_eq]
      rintro (⟨h1, _⟩ | ⟨h2, _⟩)
      · exact hb.1 h1 (by simpa using hteam)
      · exact hb.2 h2 (by simpa using hteam)

theorem markWinner_locks (s : MatchState) (w : Bool) : (markWinner s w).locks = s.locks := by
  cases w <;> rfl

theorem markWinner_p1 (s : MatchState) (w : Bool) :
    (markWinner s w).p1.team = s.p1.team := by
  cases w <;> rfl

theorem markWinner_p2 (s : MatchState) (w : Bool) :
    (markWinner s w).p2.team = s.p2.team := by
  cases w <;> rfl

/-- The two orders of walking the rosters (player1 then player2, or
winner then loser) release the same set of ids. -/
theorem mem_allTeamBalls_iff (s : MatchState) (w : Bool) (b : Ball) :
    b ∈ allTeamBalls s w ↔ b ∈ s.p1.get_all_players ++ s.p2.get_all_players := by
  cases w
  · simp [allTeamBalls, MatchState.player, List.mem_append]
    tauto
  · simp [allTeamBalls, MatchState.player, List.mem_append]

theorem markWinner_get_all_p1 (s : MatchState) (w : Bool) :
    (markWinner s w).p1.get_all_players = s.p1.get_all_players := by
  cases w <;> rfl

theorem markWinner_get_all_p2 (s : MatchState) (w : Bool) :
    (markWinner s w).p2.get_all_players = s.p2.get_all_players := by
  cases w <;> rfl

theorem mem_map_allTeam_iff (s : MatchState) (w : Bool) (j : Nat) :
    j ∈ (allTeamBalls s w).map Ball.id ↔
      j ∈ (s.p1.get_all_players ++ s.p2.get_all_players).map Ball.id := by
  simp only [List.mem_map]
  constructor
  · rintro ⟨b, hb, rfl⟩
    exact ⟨b, (mem_allTeamBalls_iff s w b).mp hb, rfl⟩
  · rintro ⟨b, hb, rfl⟩
    exact ⟨b, (mem_allTeamBalls_iff s w b).mpr hb, rfl⟩

theorem settleFull_locks (s : MatchState) (w : Bool) :
    ((settleFull s w).1).locks =
      s.locks.filter (fun j => decide (j ∉ (allTeamBalls s w).map Ball.id)) := by
  show removeIds (markWinner s w).locks (settleOps s w) = _
  rw [markWinner_locks, removeIds_eq_filter]
  apply List.filter_congr
  intro x _
  simp only [decide_eq_decide]
  rw [mem_settleOps_iff]

/-- An aborted settlement ends cancelled, with exactly the locks a
completed settlement would leave. -/
theorem settleAborted_spec (s : MatchState) (w : Bool) (k : Nat) :
    (settleAborted s w k).phase = .cancelled ∧
    (settleAborted s w k).locks = ((settleFull s w).1).locks := by
  constructor
  · unfold settleAborted
    dsimp only
    split_ifs <;> rfl
  · unfold settleAborted
    dsimp only
    split_ifs with hk
    · rw [cancelRun_locks]
      show ((removeIds (markWinner s w).locks ((settleOps s w).take k)).filter _) = _
      rw [markWinner_locks, removeIds_eq_filter, List.filter_filter, settleFull_locks]
      apply List.filter_congr
      intro x _
      simp only [markWinner_get_all_p1, markWinner_get_all_p2]
      by_cases hx : x ∈ (allTeamBalls s w).map Ball.id
      · have hx12 : x ∈ (s.p1.get_all_players ++ s.p2.get_all_players).map Ball.id :=
          (mem_map_allTeam_iff s w x).mp hx
        rw [decide_eq_false (fun hcon => hcon hx12), Bool.false_and,
          decide_eq_false (fun hcon => hcon hx)]
      · have hx12 : x ∉ (s.p1.get_all_players ++ s.p2.get_all_players).map Ball.id :=
          fun hc => hx ((mem_map_allTeam_iff s w x).mpr hc)
        have htk : x ∉ (settleOps s w).take k := by
          intro hc
          exact hx ((mem_settleOps_iff s w x).mp (List.mem_of_mem_take hc))
        rw [decide_eq_true hx12, decide_eq_true hx, decide_eq_true htk, Bool.true_and]
    · rw [cancelRun_locks]
      show (((settleFull s w).1).locks.filter _) = _
      have he1 : ((settleFull s w).1).p1.get_all_players = [] := rfl
      have he2 : ((settleFull s w).1).p2.get_all_players = [] := rfl
      simp [he1, he2]

theorem addCmd_full_reject (pos : Position) (b : Ball) (fc : Bool) (u : GameUser)
    (l : LockStore) (h : positionCap pos ≤ (u.team.get pos).length) :
    addCmd pos b fc u l = (u, l) := by
  unfold addCmd
  split_ifs <;> rfl

theorem lockCmd_reject (who : Bool) (s : MatchState)
    (h : (s.player who).has_minimum_team = false) : lockCmd who s = s := by
  unfold lockCmd
  by_cases h1 : (s.player who).locked
  · rw [if_pos h1]
  · rw [if_neg h1, if_pos (by simp [h])]

/-- C1: the claim fails on the code. In the concrete scenario below the
match trade-locks the wagered asset `bBet` (never rostered), yet both
the cancellation path and the settlement path leave it trade-locked:
`GameMenu.cancel` and the settlement unlock loops only walk the rosters
(and the roster-filtered wager list), never the wager-only assets. -/
theorem C1_wager_only_asset_stays_locked :
    isLockedBall sC1.locks bBet = true ∧
    (cancelRun sC1).phase = Phase.cancelled ∧
    isLockedBall (cancelRun sC1).locks bBet = true ∧
    ((settleFull sC1 true).1).phase = Phase.settled ∧
    isLockedBall ((settleFull sC1 true).1).locks bBet = true ∧
    isLockedBall ((settleAborted sC1 true 0)).locks bBet = true := by
  exact ⟨rfl, rfl, rfl, rfl, rfl, rfl⟩

/-- C3: starting from a fresh match, no sequence of commands ever pushes
a roster position over its capacity; the capacities are GK 1, DF 4,
MF 3, FW 3; and an add against a full position is rejected leaving the
whole match state unchanged. -/
theorem C3_roster_capacity :
    (∀ (n1 n2 : String) (pid1 pid2 : Nat) (locks : LockStore) (cmds : List Cmd)
      (who : Bool) (pos : Position),
      (((run cmds (initState n1 n2 pid1 pid2 locks)).player who).team.get pos).length ≤
        positionCap pos) ∧
    (positionCap .GK = 1 ∧ positionCap .DF = 4 ∧ positionCap .MF = 3 ∧ positionCap .FW = 3) ∧
    (∀ (s : MatchState) (who : Bool) (pos : Position) (b : Ball) (fc : Bool),
      positionCap pos ≤ ((s.player who).team.get pos).length →
      step (.add who pos b fc) s = s) := by
  refine ⟨?_, ⟨rfl, rfl, rfl, rfl⟩, ?_⟩
  · intro n1 n2 pid1 pid2 locks cmds who pos
    refine run_cap cmds _ who ?_ pos
    rw [initState_player]
    cases who
    · simp only [Bool.false_eq_true, if_false]
      exact initUser_capOk n2 pid2
    · simp only [if_true]
      exact initUser_capOk n1 pid1
  · intro s who pos b fc h
    exact applyUser_id s who _ (addCmd_full_reject pos b fc _ _ h)

/-- Witness for C3 at concrete inputs: player1's goalkeeper slot in the
built scenario respects its capacity, and adding another goalkeeper to
the full slot is a no-op. -/
theorem C3_roster_capacity_witness :
    ((sBuild.player true).team.get .GK).length ≤ positionCap .GK ∧
    step (.add true .GK ⟨11, 1, 1, true, false, 10, "X"⟩ true) sBuild = sBuild := by
  constructor
  · exact C3_roster_capacity.1 "alice" "bob" 10 20 [] scenarioBuild true .GK
  · exact C3_roster_capacity.2.2 sBuild true .GK ⟨11, 1, 1, true, false, 10, "X"⟩ true
      (by decide)

/-- C4: a participant whose locked flag is set keeps it through every
subsequent command, and their roster and wager list are unchanged by the
whole remaining command sequence. -/
theorem C4_locked_participant_frozen (s : MatchState) (who : Bool)
    (h : (s.player who).locked = true) (cmds : List Cmd) :
    ((run cmds s).player who).locked = true ∧
    ((run cmds s).player who).team = (s.player who).team ∧
    ((run cmds s).player who).bets = (s.player who).bets :=
  run_locked_frozen cmds s who h

/-- Witness for C4: in the fully locked scenario state, a later add,
remove, bet and clear by player1 leave the roster and wagers intact. -/
theorem C4_locked_participant_frozen_witness :
    ((run [.add true .GK bBet true, .remove true bG1, .bet true bBet,
        .clearTeam true true] sC1).player true).locked = true ∧
    ((run [.add true .GK bBet true, .remove true bG1, .bet true bBet,
        .clearTeam true true] sC1).player true).team = (sC1.player true).team ∧
    ((run [.add true .GK bBet true, .remove true bG1, .bet true bBet,
        .clearTeam true true] sC1).player true).bets = (sC1.player true).bets :=
  C4_locked_participant_frozen sC1 true (by decide)
    [.add true .GK bBet true, .remove true bG1, .bet true bBet, .clearTeam true true]

/-- C5: from a fresh match, the simulation phase is reachable only with
both sides locked; a locked side always has at least one asset in every
position; and a lock request by a side missing a position is a no-op. -/
theorem C5_lock_requires_minimum_team :
    (∀ (n1 n2 : String) (pid1 pid2 : Nat) (locks : LockStore) (cmds : List Cmd),
      ((run cmds (initState n1 n2 pid1 pid2 locks)).phase = .simulating →
        ((run cmds (initState n1 n2 pid1 pid2 locks)).player true).locked = true ∧
        ((run cmds (initState n1 n2 pid1 pid2 locks)).player false).locked = true) ∧
      (∀ w, ((run cmds (initState n1 n2 pid1 pid2 locks)).player w).locked = true →
        ((run cmds (initState n1 n2 pid1 pid2 locks)).player w).has_minimum_team = true)) ∧
    (∀ (s : MatchState) (who : Bool), (s.player who).has_minimum_team = false →
      step (.lockTeam who) s = s) := by
  constructor
  · intro n1 n2 pid1 pid2 locks cmds
    constructor
    · exact run_simBothLocked cmds _ (by intro h; simp [initState] at h)
    · refine run_lockedMin cmds _ ?_
      intro w hw
      rw [initState_player] at hw
      cases w <;> simp [initUser] at hw
  · intro s who h
    exact lockCmd_reject who s h

/-- Witness for C5: the scenario reaches the simulation phase with both
sides locked and minimal teams, and a lock attempt on the fresh match
(empty positions) changes nothing. -/
theorem C5_lock_requires_minimum_team_witness :
    (sC1.player true).locked = true ∧ (sC1.player false).locked = true ∧
    (sC1.player true).has_minimum_team = true ∧
    step (.lockTeam true) (initState "alice" "bob" 10 20 []) =
      initState "alice" "bob" 10 20 [] := by
  have h := C5_lock_requires_minimum_team.1 "alice" "bob" 10 20 [] scenario
  refine ⟨(h.1 (by decide)).1, (h.1 (by decide)).2, h.2 true (by decide), ?_⟩
  exact C5_lock_requires_minimum_team.2 (initState "alice" "bob" 10 20 []) true (by decide)

/-- C9: a settlement aborted at any point is converted into a
cancellation, the remaining locks are exactly those a completed
settlement leaves, and every rostered asset (hence every transferable
wager) ends unlocked. -/
theorem C9_aborted_settlement_cancels (s : MatchState) (w : Bool) (k : Nat) :
    (settleAborted s w k).phase = .cancelled ∧
    (settleAborted s w k).locks = ((settleFull s w).1).locks ∧
    (∀ b, b ∈ allTeamBalls s w → isLockedBall (settleAborted s w k).locks b = false) := by
  obtain ⟨h1, h2⟩ := settleAborted_spec s w k
  refine ⟨h1, h2, ?_⟩
  intro b hb
  rw [h2, settleFull_locks]
  have hmem : b.id ∈ (allTeamBalls s w).map Ball.id := List.mem_map.mpr ⟨b, hb, rfl⟩
  have hnot : b.id ∉ s.locks.filter
      (fun j => decide (j ∉ (allTeamBalls s w).map Ball.id)) := by
    intro hin
    have hd := (List.mem_filter.mp hin).2
    rw [decide_eq_true_eq] at hd
    exact hd hmem
  simpa [isLockedBall] using hnot

/-- C2: settlement transfers exactly the wagered assets that are members
of either final roster, reassigning them to the winner's player record;
the winner's won flag is set and the loser's is untouched. -/
theorem C2_settlement_transfers (s : MatchState) (w : Bool) :
    (∀ t, t ∈ (settleFull s w).2 ↔
      ∃ b, (b ∈ s.p1.bets ∨ b ∈ s.p2.bets) ∧ b ∈ allTeamBalls s w ∧
        t = { b with owner := (s.player w).playerId }) ∧
    (((settleFull s w).1).player w).won = true ∧
    (((settleFull s w).1).player (!w)).won = (s.player (!w)).won := by
  refine ⟨?_, ?_, ?_⟩
  · intro t
    show t ∈ (bettedBalls s w).map (fun b => { b with owner := (s.player w).playerId }) ↔ _
    rw [List.mem_map]
    unfold bettedBalls
    constructor
    · rintro ⟨b, hb, rfl⟩
      rcases List.mem_append.mp hb with h1 | h1
      · rcases List.mem_filter.mp h1 with ⟨hb1, hb2⟩
        exact ⟨b, Or.inl hb1, by simpa using hb2, rfl⟩
      · rcases List.mem_filter.mp h1 with ⟨hb1, hb2⟩
        exact ⟨b, Or.inr hb1, by simpa using hb2, rfl⟩
    · rintro ⟨b, hb, hteam, rfl⟩
      refine ⟨b, ?_, rfl⟩
      rcases hb with h1 | h1
      · exact List.mem_append.mpr (Or.inl (List.mem_filter.mpr ⟨h1, by simpa using hteam⟩))
      · exact List.mem_append.mpr (Or.inr (List.mem_filter.mpr ⟨h1, by simpa using hteam⟩))
  · cases w <;> rfl
  · cases w <;> rfl

theorem foldl_add_strength (l : List Ball) (a : ℚ) :
    l.foldl (fun acc p => acc + ((p.attack : ℚ) + (p.health : ℚ))) a =
      a + (l.map (fun b => (b.attack : ℚ) + (b.health : ℚ))).sum := by
  induction l generalizing a with
  | nil => simp
  | cons b bs ih =>
      rw [List.foldl_cons, ih, List.map_cons, List.sum_cons]
      ring

/-- C6: team strength is the arithmetic mean of attack + health over the
roster (0 when empty), and the round event winner is the strictly
stronger side exactly when the draw is below 0.55, player1 on a tie
exactly when the draw is below 0.50. -/
theorem C6_strength_and_event_rule :
    (∀ u : GameUser, u.get_team_strength = meanStrengthSpec u) ∧
    (∀ u : GameUser, u.get_all_players = [] → u.get_team_strength = 0) ∧
    (∀ (p1 p2 : GameUser) (draw : ℚ),
      (p1.get_team_strength > p2.get_team_strength →
        (roundWinnerIsP1 p1 p2 draw = true ↔ draw < 55/100)) ∧
      (p2.get_team_strength > p1.get_team_strength →
        (roundWinnerIsP1 p1 p2 draw = false ↔ draw < 55/100)) ∧
      (p1.get_team_strength = p2.get_team_strength →
        (roundWinnerIsP1 p1 p2 draw = true ↔ draw < 1/2))) := by
  refine ⟨?_, ?_, ?_⟩
  · intro u
    unfold GameUser.get_team_strength meanStrengthSpec
    dsimp only
    by_cases he : u.get_all_players = []
    · simp [he]
    · rw [if_neg (by simpa [List.isEmpty_iff] using he), if_neg he, foldl_add_strength,
        zero_add]
  · intro u he
    unfold GameUser.get_team_strength
    dsimp only
    rw [if_pos (by simpa [List.isEmpty_iff] using he)]
  · intro p1 p2 draw
    refine ⟨?_, ?_, ?_⟩
    · intro hgt
      unfold roundWinnerIsP1 strongerSide
      rw [if_pos hgt]
      by_cases hd : draw < 55/100 <;> simp [hd]
    · intro hgt
      unfold roundWinnerIsP1 strongerSide
      rw [if_neg (lt_asymm hgt), if_pos hgt]
      by_cases hd : draw < 55/100 <;> simp [hd]
    · intro heq
      unfold roundWinnerIsP1 strongerSide
      rw [heq, if_neg (lt_irrefl _), if_neg (lt_irrefl _)]
      by_cases hd : draw < 1/2 <;> simp [hd]

/-- Witness for C6: a side of equal strength to itself falls in the tie
branch, where player1 wins the event exactly on a draw below one half,
and the code strength agrees with the spec-side mean on the scenario
team. -/
theorem C6_strength_and_event_rule_witness :
    (roundWinnerIsP1 (sC1.player true) (sC1.player true) (1/10) = true ↔
      (1/10 : ℚ) < 1/2) ∧
    (sC1.player true).get_team_strength = meanStrengthSpec (sC1.player true) :=
  ⟨(C6_strength_and_event_rule.2.2 (sC1.player true) (sC1.player true) (1/10)).2.2 rfl,
    C6_strength_and_event_rule.1 (sC1.player true)⟩

theorem playRound_events_length (p1 p2 : GameUser) (i : Nat) (r : RoundRand)
    (st : (String → Nat) × List MatchEvent) :
    ((playRound p1 p2 i r st).2).length ≤ st.2.length + 1 := by
  obtain ⟨d, e, n⟩ := r
  cases e <;> (dsimp only [playRound]; split_ifs) <;> simp

theorem foldl_playRound_length (p1 p2 : GameUser) (f : Nat → RoundRand)
    (l : List Nat) (st : (String → Nat) × List MatchEvent) :
    ((l.foldl (fun st i => playRound p1 p2 i (f i) st) st).2).length ≤
      st.2.length + l.length := by
  induction l generalizing st with
  | nil => simp
  | cons a as ih =>
      rw [List.foldl_cons]
      refine le_trans (ih _) ?_
      have hp := playRound_events_length p1 p2 a (f a) st
      simp only [List.length_cons]
      omega

theorem foldl_playRound_congr (p1 p2 : GameUser) (f g : Nat → RoundRand)
    (l : List Nat) (st : (String → Nat) × List MatchEvent)
    (h : ∀ i ∈ l, f i = g i) :
    l.foldl (fun st i => playRound p1 p2 i (f i) st) st =
      l.foldl (fun st i => playRound p1 p2 i (g i) st) st := by
  induction l generalizing st with
  | nil => rfl
  | cons a as ih =>
      rw [List.foldl_cons, List.foldl_cons, h a (List.mem_cons_self a as)]
      exact ih _ (fun i hi => h i (List.mem_cons_of_mem a hi))

/-- C7: regulation consumes exactly the first 10 round draws, appends at
most one log entry per round, and each round resolves its drawn event
category against the stated position pool — the event winner's forwards
for a goal (the only score change), the event winner's goalkeepers for a
save, the event loser's forwards for an offside, the event winner's
defenders for a defensive play, the event loser's midfielders for a
foul — with an empty pool producing no log entry and no score change. -/
theorem C7_regulation_semantics :
    (∀ (p1 p2 : GameUser) (f g : Nat → RoundRand),
      (∀ i, i < 10 → f i = g i) → runRegulation p1 p2 f = runRegulation p1 p2 g) ∧
    (∀ (p1 p2 : GameUser) (rands : Nat → RoundRand),
      ((runRegulation p1 p2 rands).2).length ≤ 10) ∧
    (∀ (p1 p2 : GameUser) (i : Nat) (st : (String → Nat) × List MatchEvent)
        (d : ℚ) (n : Nat),
      (playRound p1 p2 i ⟨d, .goal, n⟩ st =
        (if (if roundWinnerIsP1 p1 p2 d then p1 else p2).team.fw.isEmpty then st
         else
          (updScore st.1 (if roundWinnerIsP1 p1 p2 d then p1 else p2).name
            (st.1 (if roundWinnerIsP1 p1 p2 d then p1 else p2).name + 1),
           st.2 ++ [⟨(i + 1) * 10, (if roundWinnerIsP1 p1 p2 d then p1 else p2).name,
            (choice (if roundWinnerIsP1 p1 p2 d then p1 else p2).team.fw n).country,
            .regular .goal⟩]))) ∧
      (playRound p1 p2 i ⟨d, .save, n⟩ st =
        (if (if roundWinnerIsP1 p1 p2 d then p1 else p2).team.gk.isEmpty then st
         else
          (st.1, st.2 ++ [⟨(i + 1) * 10, (if roundWinnerIsP1 p1 p2 d then p1 else p2).name,
            (choice (if roundWinnerIsP1 p1 p2 d then p1 else p2).team.gk n).country,
            .regular .save⟩]))) ∧
      (playRound p1 p2 i ⟨d, .offside, n⟩ st =
        (if (if roundWinnerIsP1 p1 p2 d then p2 else p1).team.fw.isEmpty then st
         else
          (st.1, st.2 ++ [⟨(i + 1) * 10, (if roundWinnerIsP1 p1 p2 d then p2 else p1).name,
            (choice (if roundWinnerIsP1 p1 p2 d then p2 else p1).team.fw n).country,
            .regular .offside⟩]))) ∧
      (playRound p1 p2 i ⟨d, .defense, n⟩ st =
        (if (if roundWinnerIsP1 p1 p2 d then p1 else p2).team.df.isEmpty then st
         else
          (st.1, st.2 ++ [⟨(i + 1) * 10, (if roundWinnerIsP1 p1 p2 d then p1 else p2).name,
            (choice (if roundWinnerIsP1 p1 p2 d then p1 else p2).team.df n).country,
            .regular .defense⟩]))) ∧
      (playRound p1 p2 i ⟨d, .foul, n⟩ st =
        (if (if roundWinnerIsP1 p1 p2 d then p2 else p1).team.mf.isEmpty then st
         else
          (st.1, st.2 ++ [⟨(i + 1) * 10, (if roundWinnerIsP1 p1 p2 d then p2 else p1).name,
            (choice (if roundWinnerIsP1 p1 p2 d then p2 else p1).team.mf n).country,
            .regular .foul⟩])))) := by
  refine ⟨?_, ?_, ?_⟩
  · intro p1 p2 f g h
    unfold runRegulation
    exact foldl_playRound_congr p1 p2 f g _ _ (fun i hi => h i (List.mem_range.mp hi))
  · intro p1 p2 rands
    have hl := foldl_playRound_length p1 p2 rands (List.range 10) (initScore p1.name p2.name, [])
    simpa [runRegulation] using hl
  · intro p1 p2 i st d n
    exact ⟨rfl, rfl, rfl, rfl, rfl⟩

/-- Witness for C7: two round streams agreeing below index 10 yield the
same regulation result for the scenario sides, and the goal-round
equation holds at a concrete draw. -/
theorem C7_regulation_semantics_witness :
    runRegulation (sC1.player true) (sC1.player false) (fun i => ⟨0, .goal, i⟩) =
      runRegulation (sC1.player true) (sC1.player false)
        (fun i => if i < 10 then ⟨0, .goal, i⟩ else ⟨1, .save, 0⟩) ∧
    playRound (sC1.player true) (sC1.player false) 0 ⟨0, .goal, 0⟩
        (initScore "alice" "bob", []) =
      (if (if roundWinnerIsP1 (sC1.player true) (sC1.player false) 0
            then sC1.player true else sC1.player false).team.fw.isEmpty
        then (initScore "alice" "bob", [])
        else
          (updScore (initScore "alice" "bob")
            (if roundWinnerIsP1 (sC1.player true) (sC1.player false) 0
              then sC1.player true else sC1.player false).name
            ((initScore "alice" "bob")
              (if roundWinnerIsP1 (sC1.player true) (sC1.player false) 0
                then sC1.player true else sC1.player false).name + 1),
           [] ++ [⟨10, (if roundWinnerIsP1 (sC1.player true) (sC1.player false) 0
              then sC1.player true else sC1.player false).name,
            (choice (if roundWinnerIsP1 (sC1.player true) (sC1.player false) 0
              then sC1.player true else sC1.player false).team.fw 0).country,
            .regular .goal⟩])) :=
  ⟨C7_regulation_semantics.1 (sC1.player true) (sC1.player false) _ _
      (fun _ hi => (if_pos hi).symm),
    (C7_regulation_semantics.2.2 (sC1.player true) (sC1.player false) 0
      (initScore "alice" "bob", []) 0 0).1⟩

/-- C8: a penalty attempt is skipped when the shooter has no forward or
the opponent no goalkeeper; otherwise a shot succeeds exactly on a draw
below 0.70 / 0.50 / 0.60 according to whether the shooter's combined
stats exceed, trail, or equal the keeper's; the shootout consumes
exactly the 6 attempt draws of its 3 rounds; and a tie after regulation
enters the shootout, a further tie handing the win to the sudden-death
coin, so a winner is always decided. -/
theorem C8_penalty_semantics :
    (∀ (sh ot : GameUser) (r : Nat) (a : PenAttempt)
        (st : (String → Nat) × List MatchEvent),
      (sh.team.fw.isEmpty || ot.team.gk.isEmpty) = true → penAttempt sh ot r a st = st) ∧
    (∀ (sh ot : GameUser) (r : Nat) (a : PenAttempt)
        (st : (String → Nat) × List MatchEvent),
      sh.team.fw.isEmpty = false → ot.team.gk.isEmpty = false →
      (((choice sh.team.fw a.shooterPick).attack + (choice sh.team.fw a.shooterPick).health >
          (choice ot.team.gk a.gkPick).attack + (choice ot.team.gk a.gkPick).health) →
        ((penAttempt sh ot r a st).1 sh.name = st.1 sh.name + 1 ↔ a.draw < 70/100)) ∧
      (((choice ot.team.gk a.gkPick).attack + (choice ot.team.gk a.gkPick).health >
          (choice sh.team.fw a.shooterPick).attack + (choice sh.team.fw a.shooterPick).health) →
        ((penAttempt sh ot r a st).1 sh.name = st.1 sh.name + 1 ↔ a.draw < 50/100)) ∧
      (((choice sh.team.fw a.shooterPick).attack + (choice sh.team.fw a.shooterPick).health =
          (choice ot.team.gk a.gkPick).attack + (choice ot.team.gk a.gkPick).health) →
        ((penAttempt sh ot r a st).1 sh.name = st.1 sh.name + 1 ↔ a.draw < 60/100))) ∧
    (∀ (p1 p2 : GameUser) (f g : Nat → PenAttempt),
      (∀ i, i < 6 → f i = g i) → runPenalties p1 p2 f = runPenalties p1 p2 g) ∧
    (∀ (p1 p2 : GameUser) (rands : Nat → RoundRand) (pens : Nat → PenAttempt)
        (coin : Bool),
      ((runRegulation p1 p2 rands).1 p1.name = (runRegulation p1 p2 rands).1 p2.name →
        (decideWinner p1 p2 rands pens coin).wentToPenalties = true) ∧
      ((runRegulation p1 p2 rands).1 p1.name = (runRegulation p1 p2 rands).1 p2.name →
       (runPenalties p1 p2 pens).1 p1.name = (runPenalties p1 p2 pens).1 p2.name →
        (decideWinner p1 p2 rands pens coin).winnerIsP1 = coin ∧
        (decideWinner p1 p2 rands pens coin).suddenDeath = true)) := by
  refine ⟨?_, ?_, ?_, ?_⟩
  · intro sh ot r a st h
    unfold penAttempt
    dsimp only
    rw [if_pos h]
  · intro sh ot r a st h1 h2
    unfold penAttempt
    dsimp only
    rw [if_neg (by simp [h1, h2])]
    refine ⟨?_, ?_, ?_⟩
    · intro hcmp
      rw [if_pos hcmp]
      by_cases hd : a.draw < 70/100
      · rw [if_pos hd]
        simp [updScore, hd]
      · rw [if_neg hd]
        simp only [hd, iff_false]
        omega
    · intro hcmp
      rw [if_neg (lt_asymm hcmp), if_pos hcmp]
      by_cases hd : a.draw < 50/100
      · rw [if_pos hd]
        simp [updScore, hd]
      · rw [if_neg hd]
        simp only [hd, iff_false]
        omega
    · intro hcmp
      have hn1 : ¬((choice sh.team.fw a.shooterPick).attack +
          (choice sh.team.fw a.shooterPick).health >
          (choice ot.team.gk a.gkPick).attack + (choice ot.team.gk a.gkPick).health) := by
        rw [hcmp]
        exact lt_irrefl _
      have hn2 : ¬((choice ot.team.gk a.gkPick).attack +
          (choice ot.team.gk a.gkPick).health >
          (choice sh.team.fw a.shooterPick).attack +
          (choice sh.team.fw a.shooterPick).health) := by
        rw [hcmp]
        exact lt_irrefl _
      rw [if_neg hn1, if_neg hn2]
      by_cases hd : a.draw < 60/100
      · rw [if_pos hd]
        simp [updScore, hd]
      · rw [if_neg hd]
        simp only [hd, iff_false]
        omega
  · intro p1 p2 f g h
    unfold runPenalties runPenaltyRound
    simp only [List.foldl_cons, List.foldl_nil]
    norm_num
    rw [h 0 (by norm_num), h 1 (by norm_num), h 2 (by norm_num), h 3 (by norm_num),
      h 4 (by norm_num), h 5 (by norm_num)]
  · intro p1 p2 rands pens coin
    constructor
    · intro h
      unfold decideWinner
      dsimp only
      have hn1 : ¬((runRegulation p1 p2 rands).1 p1.name >
          (runRegulation p1 p2 rands).1 p2.name) := by
        rw [h]
        exact lt_irrefl _
      have hn2 : ¬((runRegulation p1 p2 rands).1 p2.name >
          (runRegulation p1 p2 rands).1 p1.name) := by
        rw [h]
        exact lt_irrefl _
      rw [if_neg hn1, if_neg hn2]
      split_ifs <;> rfl
    · intro h h2
      unfold decideWinner
      dsimp only
      have hn1 : ¬((runRegulation p1 p2 rands).1 p1.name >
          (runRegulation p1 p2 rands).1 p2.name) := by
        rw [h]
        exact lt_irrefl _
      have hn2 : ¬((runRegulation p1 p2 rands).1 p2.name >
          (runRegulation p1 p2 rands).1 p1.name) := by
        rw [h]
        exact lt_irrefl _
      have hp1 : ¬((runPenalties p1 p2 pens).1 p1.name >
          (runPenalties p1 p2 pens).1 p2.name) := by
        rw [h2]
        exact lt_irrefl _
      have hp2 : ¬((runPenalties p1 p2 pens).1 p2.name >
          (runPenalties p1 p2 pens).1 p1.name) := by
        rw [h2]
        exact lt_irrefl _
      rw [if_neg hn1, if_neg hn2, if_neg hp1, if_neg hp2]
      exact ⟨rfl, rfl⟩

/-- Witness for C8: a forwardless side skips its attempt; two attempt
streams agreeing below index 6 give the same shootout; and the scenario
shooter (combined 6) against the weaker keeper (combined 4) scores
exactly on a draw below 0.70. -/
theorem C8_penalty_semantics_witness :
    penAttempt (initUser "kim" 1) (initUser "lee" 2) 1 ⟨0, 0, 0⟩
        (initScore "kim" "lee", []) = (initScore "kim" "lee", []) ∧
    runPenalties (sC1.player true) (sC1.player false) (fun i => ⟨i, 0, 0⟩) =
      runPenalties (sC1.player true) (sC1.player false)
        (fun i => if i < 6 then ⟨i, 0, 0⟩ else ⟨9, 9, 9⟩) ∧
    ((penAttempt (sC1.player true) (sC1.player false) 1 ⟨0, 0, 1/10⟩
        (initScore "alice" "bob", [])).1 (sC1.player true).name =
      (initScore "alice" "bob") (sC1.player true).name + 1 ↔ (1/10 : ℚ) < 70/100) :=
  ⟨C8_penalty_semantics.1 (initUser "kim" 1) (initUser "lee" 2) 1 ⟨0, 0, 0⟩
      (initScore "kim" "lee", []) rfl,
   C8_penalty_semantics.2.2.1 (sC1.player true) (sC1.player false) _ _
      (fun _ hi => (if_pos hi).symm),
   (C8_penalty_semantics.2.1 (sC1.player true) (sC1.player false) 1 ⟨0, 0, 1/10⟩
      (initScore "alice" "bob", []) rfl rfl).1 (by decide)⟩

/-- C10: when both participants carry the same display name the score
dictionaries collapse to a single shared counter, every regulation and
penalty comparison ties, and the winner is exactly the sudden-death
coin. -/
theorem C10_identical_names_coin_decides (p1 p2 : GameUser) (rands : Nat → RoundRand)
    (pens : Nat → PenAttempt) (coin : Bool) (h : p1.name = p2.name) :
    decideWinner p1 p2 rands pens coin =
      ⟨coin, true, true, (runRegulation p1 p2 rands).1,
        some (runPenalties p1 p2 pens).1⟩ := by
  unfold decideWinner
  dsimp only
  rw [h, if_neg (lt_irrefl _), if_neg (lt_irrefl _), if_neg (lt_irrefl _),
    if_neg (lt_irrefl _)]

/-- Witness for C10 with two distinct participants both named sam: the
coin (here: player1) decides. -/
theorem C10_identical_names_coin_decides_witness :
    decideWinner (initUser "sam" 1) (initUser "sam" 2) (fun i => ⟨0, .goal, i⟩)
        (fun i => ⟨i, 0, 0⟩) true =
      ⟨true, true, true,
        (runRegulation (initUser "sam" 1) (initUser "sam" 2) (fun i => ⟨0, .goal, i⟩)).1,
        some (runPenalties (initUser "sam" 1) (initUser "sam" 2) (fun i => ⟨i, 0, 0⟩)).1⟩ :=
  C10_identical_names_coin_decides (initUser "sam" 1) (initUser "sam" 2)
    (fun i => ⟨0, .goal, i⟩) (fun i => ⟨i, 0, 0⟩) true rfl

/-- Witness for C9 at the scenario state: the settlement aborted before
any unlock still cancels and leaves player1's rostered goalkeeper
unlocked. -/
theorem C9_aborted_settlement_cancels_witness :
    (settleAborted sC1 true 0).phase = .cancelled ∧
    isLockedBall (settleAborted sC1 true 0).locks bG1 = false :=
  ⟨(C9_aborted_settlement_cancels sC1 true 0).1,
    (C9_aborted_settlement_cancels sC1 true 0).2.2 bG1 (by decide)⟩

/-- Witness for C2 at the scenario state: settling for player1 sets
their won flag and leaves player2's untouched. -/
theorem C2_settlement_transfers_witness :
    (((settleFull sC1 true).1).player true).won = true ∧
    (((settleFull sC1 true).1).player (!true)).won = (sC1.player (!true)).won :=
  ⟨(C2_settlement_transfers sC1 true).2.1, (C2_settlement_transfers sC1 true).2.2⟩
